import Mathlib

/-!
Verification of the NeuraLex embedding-client specification.

The repository ships only a usage example (`examples/basic_usage.py`); the
client library it exercises is absent from the sources. Following the spec,
the library core is modelled here as executable Lean definitions: input
normalization, request building, a pure retry/backoff decision function,
a fuel-indexed transport executor (sync) and a small-step executor (async),
a response parser, the error taxonomy, and the client facades with a
closed/open resource state.
-/

namespace NeuraLex

/-- Modelled from the spec: the closed error taxonomy of §4.5, plus the
resource-closed error of §4.6/§3 (ConnectionContext). Each kind carries the
context the spec requires (status code, message, retry hint). -/
inductive ClientError where
  | validationError (msg : String)
  | authenticationError (status : Nat)
  | rateLimitError (status : Nat) (retryHint : Option Nat)
  | apiError (status : Nat)
  | invalidResponseError
  | transportError
  | resourceClosedError
  deriving Repr, DecidableEq

/-- The HTTP status carried by an error, when applicable (the example reads
`e.status_code` on `APIError`). -/
def ClientError.status_code : ClientError → Option Nat
  | .authenticationError s => some s
  | .rateLimitError s _ => some s
  | .apiError s => some s
  | _ => none

/-- Whether an error is a `ValidationError`. -/
def ClientError.isValidation : ClientError → Bool
  | .validationError _ => true
  | _ => false

/-- Modelled from the spec: per-item and aggregate token accounting (§3). -/
structure UsageTotals where
  total_tokens : Nat
  deriving Repr, DecidableEq

/-- Modelled from the spec: one input text, its embedding vector and its
token usage (§3). Vector components are modelled as rationals. -/
structure EmbeddingItem where
  text : String
  embedding : List ℚ
  usage : UsageTotals
  deriving Repr, DecidableEq

/-- Modelled from the spec: the typed result of `embed` (§3), with the field
names the usage example accesses (`model`, `payload`, `total_usage`). -/
structure EmbeddingResponse where
  model : String
  payload : List EmbeddingItem
  total_usage : UsageTotals
  deriving Repr, DecidableEq

/-- Modelled from the spec: client configuration (§3, §6), immutable after
construction. Delays are in milliseconds. -/
structure ClientConfig where
  api_key : String
  baseEndpoint : String := "https://api.neuralex.ai"
  defaultModel : String := "neuralex-embed-v1"
  defaultTimeout : Nat := 30000
  batchLimit : Nat := 128
  maxAttempts : Nat := 3
  baseDelay : Nat := 500
  maxDelay : Nat := 8000
  deriving Repr, DecidableEq

/-- Modelled from the spec: `embed` accepts one string or a sequence of
strings (§4.1, §6). -/
inductive EmbedInput where
  | single (s : String)
  | batch (l : List String)
  deriving Repr, DecidableEq

/-- The canonical ordered list underlying an input. -/
def EmbedInput.toList : EmbedInput → List String
  | .single s => [s]
  | .batch l => l

/-- Modelled from the spec: per-call options of `embed` (§6). -/
structure EmbedOptions where
  model : Option String := none
  semantic_weight : Option ℚ := none
  timeout : Option Nat := none
  deriving Repr, DecidableEq

/-- Whether a string is empty or consists only of whitespace characters. -/
def blankText (s : String) : Bool :=
  s.toList.all Char.isWhitespace

/-- Modelled from the spec: the Input Normalizer (§4.1). Coerces the input
into an ordered list and validates: non-empty sequence, no empty or
whitespace-only element, count within the batch limit. Pure. -/
def normalizeInput (limit : Nat) (input : EmbedInput) :
    Except ClientError (List String) :=
  if input.toList.isEmpty then
    Except.error (ClientError.validationError "input must not be empty")
  else if input.toList.any blankText then
    Except.error
      (ClientError.validationError "input texts must not be empty or whitespace-only")
  else if limit < input.toList.length then
    Except.error (ClientError.validationError "batch limit exceeded")
  else
    Except.ok input.toList

/-- Equality of fallible results is decidable when both components are. -/
instance {ε α : Type} [DecidableEq ε] [DecidableEq α] :
    DecidableEq (Except ε α) := fun a b =>
  match a, b with
  | Except.ok x, Except.ok y => decidable_of_iff (x = y) (by simp)
  | Except.error x, Except.error y => decidable_of_iff (x = y) (by simp)
  | Except.ok _, Except.error _ => isFalse (by simp)
  | Except.error _, Except.ok _ => isFalse (by simp)

/-- Modelled from the spec: the transport-agnostic request descriptor built
by the Request Builder (§4.2), with the bearer-style auth header (§4.3 step 1,
§6). -/
structure RequestDescriptor where
  endpoint : String
  authHeader : String
  inputs : List String
  model : String
  semantic_weight : Option ℚ
  timeout : Nat
  deriving Repr, DecidableEq

/-- Modelled from the spec: the Request Builder (§4.2). Validates the
semantic weight is within the closed interval from 0 to 1 when provided;
deterministic; does not mutate the configuration. -/
def buildRequest (cfg : ClientConfig) (texts : List String)
    (opts : EmbedOptions) : Except ClientError RequestDescriptor :=
  match opts.semantic_weight with
  | some w =>
    if w < 0 ∨ 1 < w then
      Except.error (ClientError.validationError "semantic_weight must be within [0.0, 1.0]")
    else
      Except.ok
        { endpoint := cfg.baseEndpoint ++ "/v1/embeddings"
          authHeader := "Bearer " ++ cfg.api_key
          inputs := texts
          model := opts.model.getD cfg.defaultModel
          semantic_weight := some w
          timeout := opts.timeout.getD cfg.defaultTimeout }
  | none =>
    Except.ok
      { endpoint := cfg.baseEndpoint ++ "/v1/embeddings"
        authHeader := "Bearer " ++ cfg.api_key
        inputs := texts
        model := opts.model.getD cfg.defaultModel
        semantic_weight := none
        timeout := opts.timeout.getD cfg.defaultTimeout }

/-- Modelled from the spec: one raw item of a 2xx service payload (§4.4, §6):
a text echo, an embedding vector and per-item usage, each possibly absent in
a malformed payload. -/
structure RawItem where
  text : Option String
  embedding : Option (List ℚ)
  usage : Option Nat
  deriving Repr, DecidableEq

/-- Modelled from the spec: a raw 2xx service payload (§4.4, §6): a model
identifier, an items array and a top-level usage total, each possibly absent
in a malformed payload. -/
structure RawPayload where
  model : Option String
  payload : Option (List RawItem)
  usage : Option Nat
  deriving Repr, DecidableEq

/-- Modelled from the spec: one observable outcome of a transport attempt
(§4.3): a 2xx payload, an HTTP error status (with an optional
Retry-After-style hint), or a connection-level failure with no response. -/
inductive TransportOutcome where
  | success (p : RawPayload)
  | httpError (status : Nat) (retryAfter : Option Nat)
  | connectionFailure
  deriving Repr, DecidableEq

/-- A mocked transport: the outcome of each attempt on a given request. -/
def MockTransport : Type :=
  RequestDescriptor → Nat → TransportOutcome

/-- Modelled from the spec: exponential backoff, base delay times 2 to the
attempt number, capped at the max delay (§4.3 step 5); jitter is optional in
the spec and omitted here. -/
def backoffDelay (cfg : ClientConfig) (attempt : Nat) : Nat :=
  min (cfg.baseDelay * 2 ^ attempt) cfg.maxDelay

/-- Modelled from the spec: the outcome of the pure per-attempt decision
function of §9 — retry after a delay, terminal payload, or terminal error. -/
inductive RetryDecision where
  | done (p : RawPayload)
  | failNow (e : ClientError)
  | retryAfter (delay : Nat)
  deriving Repr, DecidableEq

/-- Modelled from the spec: the single pure retry/backoff/classification
decision function of §4.3/§4.5/§9, shared by both facades. 401/403 fail
immediately; 429, 5xx and connection failures retry up to the configured max
attempts, honoring a Retry-After hint on 429; other 4xx fail immediately;
exhausted retries classify as RateLimitError / APIError / TransportError with
the last observed status. -/
def retryPolicy (cfg : ClientConfig) (attempt : Nat) (o : TransportOutcome) :
    RetryDecision :=
  match o with
  | .success p => .done p
  | .httpError status hint =>
    if status = 401 ∨ status = 403 then
      .failNow (ClientError.authenticationError status)
    else if status = 429 then
      if attempt + 1 < cfg.maxAttempts then
        .retryAfter (hint.getD (backoffDelay cfg attempt))
      else
        .failNow (ClientError.rateLimitError status hint)
    else if 500 ≤ status then
      if attempt + 1 < cfg.maxAttempts then
        .retryAfter (backoffDelay cfg attempt)
      else
        .failNow (ClientError.apiError status)
    else
      .failNow (ClientError.apiError status)
  | .connectionFailure =>
    if attempt + 1 < cfg.maxAttempts then
      .retryAfter (backoffDelay cfg attempt)
    else
      .failNow ClientError.transportError

/-- The observable trace of the Transport Executor: the classified outcome,
the number of transport attempts performed, and the backoff delays waited
between consecutive attempts, in order. -/
structure TransportTrace where
  outcome : Except ClientError RawPayload
  calls : Nat
  delays : List Nat

/-- Modelled from the spec: the blocking Transport Executor (§4.3), a
fuel-indexed attempt loop driven by `retryPolicy`. -/
def execLoop (cfg : ClientConfig) (tr : Nat → TransportOutcome) :
    Nat → Nat → TransportTrace
  | _, 0 => ⟨Except.error ClientError.transportError, 0, []⟩
  | attempt, fuel + 1 =>
    match retryPolicy cfg attempt (tr attempt) with
    | .done p => ⟨Except.ok p, 1, []⟩
    | .failNow e => ⟨Except.error e, 1, []⟩
    | .retryAfter d =>
      let t := execLoop cfg tr (attempt + 1) fuel
      ⟨t.outcome, t.calls + 1, d :: t.delays⟩

/-- Run the blocking executor from attempt zero with the configured attempt
budget. -/
def runTransport (cfg : ClientConfig) (tr : Nat → TransportOutcome) :
    TransportTrace :=
  execLoop cfg tr 0 cfg.maxAttempts

/-- Modelled from the spec: the state of the non-blocking executor between
suspension points (§4.3, §5): still running at some attempt, or finished. -/
inductive ExecState where
  | running (attempt : Nat) (calls : Nat) (delays : List Nat)
  | finished (outcome : Except ClientError RawPayload) (calls : Nat)
      (delays : List Nat)

/-- Modelled from the spec: one step of the non-blocking executor — one
transport attempt followed by the shared pure decision function (§4.3, §9). -/
def execStep (cfg : ClientConfig) (tr : Nat → TransportOutcome) :
    ExecState → ExecState
  | .running attempt calls delays =>
    match retryPolicy cfg attempt (tr attempt) with
    | .done p => .finished (Except.ok p) (calls + 1) delays
    | .failNow e => .finished (Except.error e) (calls + 1) delays
    | .retryAfter d => .running (attempt + 1) (calls + 1) (delays ++ [d])
  | s => s

/-- Iterate the non-blocking executor a given number of steps. -/
def stepN (cfg : ClientConfig) (tr : Nat → TransportOutcome) :
    Nat → ExecState → ExecState
  | 0, s => s
  | n + 1, s => stepN cfg tr n (execStep cfg tr s)

/-- The observable trace of an executor state. -/
def ExecState.trace : ExecState → TransportTrace
  | .running _ calls delays =>
    ⟨Except.error ClientError.transportError, calls, delays⟩
  | .finished outcome calls delays => ⟨outcome, calls, delays⟩

/-- Modelled from the spec: the non-blocking Transport Executor (§4.3),
running the step machine for the configured attempt budget. -/
def runTransportAsync (cfg : ClientConfig) (tr : Nat → TransportOutcome) :
    TransportTrace :=
  (stepN cfg tr cfg.maxAttempts (ExecState.running 0 0 [])).trace

/-- Parse one raw item (§4.4): text echo, embedding vector and usage must
all be present. -/
def parseItem (it : RawItem) : Except ClientError EmbeddingItem :=
  match it.text, it.embedding, it.usage with
  | some t, some e, some u => Except.ok ⟨t, e, ⟨u⟩⟩
  | _, _, _ => Except.error ClientError.invalidResponseError

/-- Parse a list of raw items in order (§4.4). -/
def parseItems : List RawItem → Except ClientError (List EmbeddingItem)
  | [] => Except.ok []
  | it :: rest =>
    match parseItem it, parseItems rest with
    | Except.ok x, Except.ok xs => Except.ok (x :: xs)
    | Except.error e, _ => Except.error e
    | _, Except.error e => Except.error e

/-- Modelled from the spec: the Response Parser (§4.4). Validates presence of
the model identifier, the items array with length equal to the original input
count, per-item text echo, vector and usage, and the top-level usage total;
fails with `InvalidResponseError` otherwise; preserves input order. -/
def parseResponse (inputCount : Nat) (raw : RawPayload) :
    Except ClientError EmbeddingResponse :=
  match raw.model, raw.payload, raw.usage with
  | some m, some items, some tot =>
    if items.length = inputCount then
      match parseItems items with
      | Except.ok parsed => Except.ok ⟨m, parsed, ⟨tot⟩⟩
      | Except.error e => Except.error e
    else
      Except.error ClientError.invalidResponseError
  | _, _, _ => Except.error ClientError.invalidResponseError

/-- The observable trace of one `embed` call: the typed result, the number of
transport attempts made, and the backoff delays waited. -/
structure EmbedTrace where
  result : Except ClientError EmbeddingResponse
  calls : Nat
  delays : List Nat

/-- Modelled from the spec: the request/response core shared by both facades
(§2, §4.6): normalize, build, execute with retries, parse. Validation
failures make zero transport calls. -/
def embedCore (cfg : ClientConfig) (transport : MockTransport)
    (exec : ClientConfig → (Nat → TransportOutcome) → TransportTrace)
    (input : EmbedInput) (opts : EmbedOptions) : EmbedTrace :=
  match normalizeInput cfg.batchLimit input with
  | Except.error e => ⟨Except.error e, 0, []⟩
  | Except.ok texts =>
    match buildRequest cfg texts opts with
    | Except.error e => ⟨Except.error e, 0, []⟩
    | Except.ok req =>
      let t := exec cfg (transport req)
      match t.outcome with
      | Except.error e => ⟨Except.error e, t.calls, t.delays⟩
      | Except.ok raw => ⟨parseResponse texts.length raw, t.calls, t.delays⟩

/-- Modelled from the spec: the synchronous Client Facade (§4.6), owning its
configuration and a resource state (open or closed). -/
structure NeuraLexClient where
  config : ClientConfig
  closed : Bool
  deriving Repr, DecidableEq

/-- Construct an open synchronous client from a configuration. -/
def NeuraLexClient.create (cfg : ClientConfig) : NeuraLexClient :=
  ⟨cfg, false⟩

/-- Release the client's connection context (§4.6). -/
def NeuraLexClient.close (c : NeuraLexClient) : NeuraLexClient :=
  { c with closed := true }

/-- Modelled from the spec: `embed` on the synchronous facade (§4.6). After
`close()` it fails with the resource-closed error and touches the transport
not at all. -/
def NeuraLexClient.embed (c : NeuraLexClient) (transport : MockTransport)
    (input : EmbedInput) (opts : EmbedOptions) : EmbedTrace :=
  if c.closed then ⟨Except.error ClientError.resourceClosedError, 0, []⟩
  else embedCore c.config transport runTransport input opts

/-- Modelled from the spec: the asynchronous Client Facade (§4.6). -/
structure AsyncNeuraLexClient where
  config : ClientConfig
  closed : Bool
  deriving Repr, DecidableEq

/-- Construct an open asynchronous client from a configuration. -/
def AsyncNeuraLexClient.create (cfg : ClientConfig) : AsyncNeuraLexClient :=
  ⟨cfg, false⟩

/-- Release the client's connection context (§4.6). -/
def AsyncNeuraLexClient.close (c : AsyncNeuraLexClient) : AsyncNeuraLexClient :=
  { c with closed := true }

/-- Modelled from the spec: `embed` on the asynchronous facade (§4.6),
driving the same pure decision function through the step-machine executor. -/
def AsyncNeuraLexClient.embed (c : AsyncNeuraLexClient)
    (transport : MockTransport) (input : EmbedInput) (opts : EmbedOptions) :
    EmbedTrace :=
  if c.closed then ⟨Except.error ClientError.resourceClosedError, 0, []⟩
  else embedCore c.config transport runTransportAsync input opts

/-- Modelled from the spec: scoped acquisition for the sync facade (§4.6):
run the body on a fresh client, then close it; return the body's result and
the released client. -/
def withNeuraLexClient {β : Type} (cfg : ClientConfig)
    (body : NeuraLexClient → β) : β × NeuraLexClient :=
  let c := NeuraLexClient.create cfg
  (body c, c.close)

/-- Modelled from the spec: scoped acquisition for the async facade (§4.6). -/
def withAsyncNeuraLexClient {β : Type} (cfg : ClientConfig)
    (body : AsyncNeuraLexClient → β) : β × AsyncNeuraLexClient :=
  let c := AsyncNeuraLexClient.create cfg
  (body c, c.close)

/-- An input the Normalizer must reject (§4.1): empty sequence, an empty or
whitespace-only element, or a count above the batch limit. -/
def InvalidInput (limit : Nat) (input : EmbedInput) : Prop :=
  input.toList = [] ∨ (∃ s ∈ input.toList, blankText s = true) ∨
    limit < input.toList.length

/-! ### Lemmas about the Normalizer and the Request Builder -/

theorem normalizeInput_ok_eq {limit : Nat} {input : EmbedInput}
    {texts : List String}
    (h : normalizeInput limit input = Except.ok texts) :
    texts = input.toList := by
  unfold normalizeInput at h
  split_ifs at h <;> simp_all

theorem normalizeInput_error_validation {limit : Nat} {input : EmbedInput}
    {e : ClientError} (h : normalizeInput limit input = Except.error e) :
    ∃ m, e = ClientError.validationError m := by
  unfold normalizeInput at h
  split_ifs at h <;> simp_all <;> exact ⟨_, h.symm⟩

theorem normalizeInput_invalid {limit : Nat} {input : EmbedInput}
    (h : InvalidInput limit input) :
    ∃ m, normalizeInput limit input = Except.error (ClientError.validationError m) := by
  unfold normalizeInput
  rcases h with h | ⟨s, hs, hs'⟩ | h
  · rw [if_pos (by simp [h])]
    exact ⟨_, rfl⟩
  · by_cases h0 : input.toList.isEmpty
    · rw [if_pos h0]; exact ⟨_, rfl⟩
    · rw [if_neg h0, if_pos]
      · exact ⟨_, rfl⟩
      · exact List.any_eq_true.mpr ⟨s, hs, hs'⟩
  · by_cases h0 : input.toList.isEmpty
    · rw [if_pos h0]; exact ⟨_, rfl⟩
    · rw [if_neg h0]
      by_cases h1 : input.toList.any blankText
      · rw [if_pos h1]; exact ⟨_, rfl⟩
      · rw [if_neg h1, if_pos h]; exact ⟨_, rfl⟩

theorem buildRequest_ok_inputs {cfg : ClientConfig} {texts : List String}
    {opts : EmbedOptions} {req : RequestDescriptor}
    (h : buildRequest cfg texts opts = Except.ok req) :
    req.inputs = texts := by
  unfold buildRequest at h
  split at h
  · split_ifs at h
    cases h; rfl
  · cases h; rfl

theorem buildRequest_out_of_range {cfg : ClientConfig} {texts : List String}
    {opts : EmbedOptions} {w : ℚ} (hw : opts.semantic_weight = some w)
    (hout : w < 0 ∨ 1 < w) :
    buildRequest cfg texts opts =
      Except.error (ClientError.validationError
        "semantic_weight must be within [0.0, 1.0]") := by
  simp only [buildRequest, hw]
  rw [if_pos hout]

/-! ### Lemmas about the retry policy and the executors -/

theorem retryPolicy_done_iff (cfg : ClientConfig) (a : Nat)
    (o : TransportOutcome) (p : RawPayload) :
    retryPolicy cfg a o = RetryDecision.done p ↔
      o = TransportOutcome.success p := by
  cases o with
  | success q => simp [retryPolicy]
  | httpError s hint =>
    simp only [retryPolicy]
    split_ifs <;> simp
  | connectionFailure =>
    simp only [retryPolicy]
    split_ifs <;> simp

theorem execLoop_ok_success {cfg : ClientConfig} {tr : Nat → TransportOutcome}
    {p : RawPayload} :
    ∀ {fuel attempt : Nat},
      (execLoop cfg tr attempt fuel).outcome = Except.ok p →
      ∃ i, tr i = TransportOutcome.success p := by
  intro fuel
  induction fuel with
  | zero => intro attempt h; simp [execLoop] at h
  | succ n ih =>
    intro attempt h
    rw [execLoop] at h
    cases hd : retryPolicy cfg attempt (tr attempt) with
    | done q =>
      rw [hd] at h
      simp at h
      subst h
      exact ⟨attempt, (retryPolicy_done_iff cfg attempt (tr attempt) _).mp hd⟩
    | failNow e =>
      rw [hd] at h
      simp at h
    | retryAfter d =>
      rw [hd] at h
      simp at h
      exact ih h

theorem stepN_finished (cfg : ClientConfig) (tr : Nat → TransportOutcome)
    (o : Except ClientError RawPayload) (c : Nat) (d : List Nat) :
    ∀ n, stepN cfg tr n (ExecState.finished o c d) = ExecState.finished o c d := by
  intro n
  induction n with
  | zero => rfl
  | succ k ih => rw [stepN]; exact ih

theorem stepN_running_trace (cfg : ClientConfig) (tr : Nat → TransportOutcome) :
    ∀ (fuel attempt calls : Nat) (delays : List Nat),
      (stepN cfg tr fuel (ExecState.running attempt calls delays)).trace =
        ⟨(execLoop cfg tr attempt fuel).outcome,
         calls + (execLoop cfg tr attempt fuel).calls,
         delays ++ (execLoop cfg tr attempt fuel).delays⟩ := by
  intro fuel
  induction fuel with
  | zero => intro attempt calls delays; simp [stepN, execLoop, ExecState.trace]
  | succ n ih =>
    intro attempt calls delays
    rw [stepN]
    cases hd : retryPolicy cfg attempt (tr attempt) with
    | done p =>
      simp only [execStep, execLoop, hd, stepN_finished, ExecState.trace]
      simp
    | failNow e =>
      simp only [execStep, execLoop, hd, stepN_finished, ExecState.trace]
      simp
    | retryAfter d =>
      simp only [execStep, execLoop, hd]
      rw [ih]
      simp [List.append_assoc] <;> omega

theorem runTransportAsync_eq (cfg : ClientConfig)
    (tr : Nat → TransportOutcome) :
    runTransportAsync cfg tr = runTransport cfg tr := by
  unfold runTransportAsync runTransport
  rw [stepN_running_trace]
  simp

/-! ### Lemmas about the Response Parser -/

theorem parseItem_ok {it : RawItem} {x : EmbeddingItem}
    (h : parseItem it = Except.ok x) :
    it.text = some x.text ∧ it.embedding = some x.embedding ∧
      it.usage = some x.usage.total_tokens := by
  unfold parseItem at h
  cases ht : it.text <;> cases he : it.embedding <;> cases hu : it.usage <;>
    rw [ht, he, hu] at h <;> simp at h
  cases h
  simp

theorem parseItem_bad {it : RawItem}
    (h : it.text = none ∨ it.embedding = none ∨ it.usage = none) :
    parseItem it = Except.error ClientError.invalidResponseError := by
  unfold parseItem
  cases ht : it.text <;> cases he : it.embedding <;> cases hu : it.usage <;>
    simp_all

theorem parseItems_ok_spec {items : List RawItem} {l : List EmbeddingItem} :
    parseItems items = Except.ok l →
      l.length = items.length ∧
      l.map (fun x => some x.text) = items.map RawItem.text ∧
      l.map (fun x => some x.embedding) = items.map RawItem.embedding ∧
      l.map (fun x => some x.usage.total_tokens) = items.map RawItem.usage := by
  induction items generalizing l with
  | nil =>
    intro h
    unfold parseItems at h
    cases h
    simp
  | cons it rest ih =>
    intro h
    unfold parseItems at h
    cases hx : parseItem it with
    | error e => rw [hx] at h; simp at h
    | ok x =>
      cases hrest : parseItems rest with
      | error e => rw [hx, hrest] at h; simp at h
      | ok xs =>
        rw [hx, hrest] at h
        simp at h
        subst h
        obtain ⟨h1, h2, h3⟩ := parseItem_ok hx
        obtain ⟨g0, g1, g2, g3⟩ := ih hrest
        refine ⟨by simp [g0], ?_, ?_, ?_⟩ <;>
          simp [h1, h2, h3, g1, g2, g3]

theorem parseItem_error {it : RawItem} {e : ClientError}
    (h : parseItem it = Except.error e) :
    e = ClientError.invalidResponseError := by
  unfold parseItem at h
  cases ht : it.text <;> cases he : it.embedding <;> cases hu : it.usage <;>
    rw [ht, he, hu] at h <;> simp_all

theorem parseItems_bad_mem {items : List RawItem} {it : RawItem}
    (hmem : it ∈ items)
    (hbad : it.text = none ∨ it.embedding = none ∨ it.usage = none) :
    parseItems items = Except.error ClientError.invalidResponseError := by
  induction items with
  | nil => simp at hmem
  | cons hd rest ih =>
    rw [parseItems]
    rcases List.mem_cons.mp hmem with rfl | hmem'
    · rw [parseItem_bad hbad]
      cases parseItems rest <;> rfl
    · rw [ih hmem']
      cases hx : parseItem hd with
      | ok x => rfl
      | error e => rw [parseItem_error hx]

theorem parseResponse_ok_elim {n : Nat} {raw : RawPayload}
    {resp : EmbeddingResponse}
    (h : parseResponse n raw = Except.ok resp) :
    ∃ items tot,
      raw.model = some resp.model ∧ raw.payload = some items ∧
      raw.usage = some tot ∧ items.length = n ∧
      parseItems items = Except.ok resp.payload ∧
      resp.total_usage = ⟨tot⟩ := by
  unfold parseResponse at h
  split at h
  next m items tot hm hp hu =>
    split_ifs at h with hlen
    · cases hpi : parseItems items with
      | error e => rw [hpi] at h; simp at h
      | ok parsed =>
        rw [hpi] at h
        simp only [Except.ok.injEq] at h
        subst h
        exact ⟨items, tot, hm, hp, hu, hlen, hpi, rfl⟩
  all_goals simp at h

/-! ### Lemmas about persistent retryable failures and backoff -/

theorem backoffDelay_mono (cfg : ClientConfig) {i j : Nat} (h : i ≤ j) :
    backoffDelay cfg i ≤ backoffDelay cfg j := by
  unfold backoffDelay
  exact min_le_min
    (Nat.mul_le_mul_left _ (Nat.pow_le_pow_right (by omega) h)) le_rfl

theorem backoffList_chain (cfg : ClientConfig) (k : Nat) :
    List.Chain' (· ≤ ·) ((List.range k).map (backoffDelay cfg)) := by
  rw [List.chain'_map]
  cases k with
  | zero => simp
  | succ m =>
    rw [List.chain'_range_succ]
    intro i _
    exact backoffDelay_mono cfg (Nat.le_succ i)

theorem execLoop_persistent (cfg : ClientConfig) (tr : Nat → TransportOutcome)
    (err : Nat → ClientError)
    (hret : ∀ a, a + 1 < cfg.maxAttempts →
      retryPolicy cfg a (tr a) = RetryDecision.retryAfter (backoffDelay cfg a))
    (hfail : ∀ a, a + 1 = cfg.maxAttempts →
      retryPolicy cfg a (tr a) = RetryDecision.failNow (err a)) :
    ∀ fuel attempt, attempt + fuel = cfg.maxAttempts → 0 < fuel →
      execLoop cfg tr attempt fuel =
        ⟨Except.error (err (cfg.maxAttempts - 1)), fuel,
         (List.range (fuel - 1)).map (fun j => backoffDelay cfg (attempt + j))⟩ := by
  intro fuel
  induction fuel with
  | zero => intro attempt h hf; omega
  | succ n ih =>
    intro attempt h _
    rw [execLoop]
    cases n with
    | zero =>
      rw [hfail attempt (by omega)]
      have : attempt = cfg.maxAttempts - 1 := by omega
      simp [this]
    | succ m =>
      rw [hret attempt (by omega)]
      rw [ih (attempt + 1) (by omega) (by omega)]
      simp only [Nat.add_sub_cancel]
      congr 1
      rw [List.range_succ_eq_map, List.map_cons, List.map_map]
      congr 1
      apply List.map_congr_left
      intro j _
      simp only [Function.comp_apply]
      congr 1
      omega

/-! ### Lemmas about the shared embed core -/

theorem embed_open (cfg : ClientConfig) (transport : MockTransport)
    (input : EmbedInput) (opts : EmbedOptions) :
    (NeuraLexClient.create cfg).embed transport input opts =
      embedCore cfg transport runTransport input opts := rfl

theorem embedCore_transport_error {cfg : ClientConfig}
    {transport : MockTransport}
    {exec : ClientConfig → (Nat → TransportOutcome) → TransportTrace}
    {input : EmbedInput} {opts : EmbedOptions} {texts : List String}
    {req : RequestDescriptor} {e : ClientError} {k : Nat} {ds : List Nat}
    (hn : normalizeInput cfg.batchLimit input = Except.ok texts)
    (hb : buildRequest cfg texts opts = Except.ok req)
    (ht : exec cfg (transport req) = ⟨Except.error e, k, ds⟩) :
    embedCore cfg transport exec input opts = ⟨Except.error e, k, ds⟩ := by
  simp [embedCore, hn, hb, ht]

theorem embedCore_transport_ok {cfg : ClientConfig}
    {transport : MockTransport}
    {exec : ClientConfig → (Nat → TransportOutcome) → TransportTrace}
    {input : EmbedInput} {opts : EmbedOptions} {texts : List String}
    {req : RequestDescriptor} {raw : RawPayload} {k : Nat} {ds : List Nat}
    (hn : normalizeInput cfg.batchLimit input = Except.ok texts)
    (hb : buildRequest cfg texts opts = Except.ok req)
    (ht : exec cfg (transport req) = ⟨Except.ok raw, k, ds⟩) :
    embedCore cfg transport exec input opts =
      ⟨parseResponse texts.length raw, k, ds⟩ := by
  simp [embedCore, hn, hb, ht]

theorem parseResponse_model_none {n : Nat} {raw : RawPayload}
    (h : raw.model = none) :
    parseResponse n raw = Except.error ClientError.invalidResponseError := by
  unfold parseResponse
  rw [h]

theorem parseResponse_payload_none {n : Nat} {raw : RawPayload}
    (h : raw.payload = none) :
    parseResponse n raw = Except.error ClientError.invalidResponseError := by
  unfold parseResponse
  rw [h]
  cases raw.model <;> rfl

theorem parseResponse_usage_none {n : Nat} {raw : RawPayload}
    (h : raw.usage = none) :
    parseResponse n raw = Except.error ClientError.invalidResponseError := by
  unfold parseResponse
  rw [h]
  cases raw.model <;> cases raw.payload <;> rfl

theorem parseResponse_some (n : Nat) (m : String) (items : List RawItem)
    (tot : Nat) :
    parseResponse n ⟨some m, some items, some tot⟩ =
      if items.length = n then
        match parseItems items with
        | Except.ok parsed => Except.ok ⟨m, parsed, ⟨tot⟩⟩
        | Except.error e => Except.error e
      else Except.error ClientError.invalidResponseError := rfl

/-- A transport whose 2xx payloads echo the request's inputs as the item
texts, in order — the order-stability assumption of §4.4/§9. -/
def EchoesInputs (transport : MockTransport) : Prop :=
  ∀ req a p, transport req a = TransportOutcome.success p →
    ∃ items, p.payload = some items ∧
      items.map RawItem.text = req.inputs.map some

/-- A 2xx payload shape the Response Parser must reject (§4.4): missing
model identifier, items array or top-level usage total; an item count
different from the input count; or an item missing its text echo, embedding
vector or usage data. -/
def MalformedPayload (n : Nat) (raw : RawPayload) : Prop :=
  raw.model = none ∨ raw.payload = none ∨ raw.usage = none ∨
    ∃ items, raw.payload = some items ∧
      (items.length ≠ n ∨ ∃ it ∈ items,
        it.text = none ∨ it.embedding = none ∨ it.usage = none)

/-! ### The claims -/

/-- C1: for every valid input (normalized to `texts`) and every transport
whose successful payloads echo the inputs, a successful `embed` returns a
response with exactly one item per input, in the caller's input order. -/
theorem embed_preserves_count_and_order (cfg : ClientConfig)
    (transport : MockTransport) (input : EmbedInput) (opts : EmbedOptions)
    (texts : List String) (resp : EmbeddingResponse)
    (hecho : EchoesInputs transport)
    (hn : normalizeInput cfg.batchLimit input = Except.ok texts)
    (hok : ((NeuraLexClient.create cfg).embed transport input opts).result =
      Except.ok resp) :
    resp.payload.length = texts.length ∧
      resp.payload.map EmbeddingItem.text = texts := by
  rw [embed_open] at hok
  cases hb : buildRequest cfg texts opts with
  | error e => simp [embedCore, hn, hb] at hok
  | ok req =>
    simp only [embedCore, hn, hb] at hok
    cases ho : (runTransport cfg (transport req)).outcome with
    | error e => rw [ho] at hok; simp at hok
    | ok raw =>
      rw [ho] at hok
      simp at hok
      have ho' : (execLoop cfg (transport req) 0 cfg.maxAttempts).outcome =
          Except.ok raw := ho
      obtain ⟨i, hi⟩ := execLoop_ok_success ho'
      obtain ⟨items, hpayload, htexts⟩ := hecho req i raw hi
      obtain ⟨items', tot, hm', hp', hu', hlen', hpi', htu'⟩ :=
        parseResponse_ok_elim hok
      rw [hpayload] at hp'
      injection hp' with hp'
      subst hp'
      obtain ⟨g0, g1, g2, g3⟩ := parseItems_ok_spec hpi'
      rw [buildRequest_ok_inputs hb] at htexts
      refine ⟨by rw [g0, hlen'], ?_⟩
      have h2 : List.map some (resp.payload.map EmbeddingItem.text) =
          List.map some texts := by
        rw [List.map_map]
        exact g1.trans htexts
      exact List.map_injective_iff.mpr (Option.some_injective _) h2

/-- C4: when HTTP 429 persists through all configured attempts, `embed`
fails with `RateLimitError`, and when a 5xx status persists through all
configured attempts, `embed` fails with `APIError` carrying the last
status — in each case having performed exactly `maxAttempts` transport
calls, with inter-attempt delays that follow the capped exponential
backoff and are non-decreasing. -/
theorem embed_retry_exhaustion (cfg : ClientConfig)
    (transport : MockTransport) (input : EmbedInput) (opts : EmbedOptions)
    (texts : List String) (req : RequestDescriptor)
    (hn : normalizeInput cfg.batchLimit input = Except.ok texts)
    (hb : buildRequest cfg texts opts = Except.ok req)
    (hpos : 0 < cfg.maxAttempts) :
    ((∀ i, i < cfg.maxAttempts →
        transport req i = TransportOutcome.httpError 429 none) →
      (NeuraLexClient.create cfg).embed transport input opts =
        ⟨Except.error (ClientError.rateLimitError 429 none), cfg.maxAttempts,
         (List.range (cfg.maxAttempts - 1)).map (backoffDelay cfg)⟩) ∧
    (∀ s : Nat → Nat,
      (∀ i, i < cfg.maxAttempts →
        500 ≤ s i ∧ transport req i = TransportOutcome.httpError (s i) none) →
      (NeuraLexClient.create cfg).embed transport input opts =
        ⟨Except.error (ClientError.apiError (s (cfg.maxAttempts - 1))),
         cfg.maxAttempts,
         (List.range (cfg.maxAttempts - 1)).map (backoffDelay cfg)⟩) ∧
    List.Chain' (· ≤ ·)
      ((List.range (cfg.maxAttempts - 1)).map (backoffDelay cfg)) := by
  have hdl : (List.range (cfg.maxAttempts - 1)).map
      (fun j => backoffDelay cfg (0 + j)) =
      (List.range (cfg.maxAttempts - 1)).map (backoffDelay cfg) := by
    apply List.map_congr_left
    intro j _
    rw [Nat.zero_add]
  refine ⟨?_, ?_, backoffList_chain cfg _⟩
  · intro h429
    have hret : ∀ a, a + 1 < cfg.maxAttempts →
        retryPolicy cfg a (transport req a) =
          RetryDecision.retryAfter (backoffDelay cfg a) := by
      intro a ha
      rw [h429 a (by omega)]
      simp [retryPolicy, ha]
    have hfail : ∀ a, a + 1 = cfg.maxAttempts →
        retryPolicy cfg a (transport req a) =
          RetryDecision.failNow (ClientError.rateLimitError 429 none) := by
      intro a ha
      rw [h429 a (by omega)]
      simp [retryPolicy, show ¬ (a + 1 < cfg.maxAttempts) by omega]
    have hrt : runTransport cfg (transport req) =
        ⟨Except.error (ClientError.rateLimitError 429 none), cfg.maxAttempts,
         (List.range (cfg.maxAttempts - 1)).map (backoffDelay cfg)⟩ := by
      unfold runTransport
      rw [execLoop_persistent cfg (transport req)
        (fun _ => ClientError.rateLimitError 429 none) hret hfail
        cfg.maxAttempts 0 (by omega) hpos, hdl]
    rw [embed_open]
    exact embedCore_transport_error hn hb hrt
  · intro s h5
    have hret : ∀ a, a + 1 < cfg.maxAttempts →
        retryPolicy cfg a (transport req a) =
          RetryDecision.retryAfter (backoffDelay cfg a) := by
      intro a ha
      obtain ⟨hs5, htr⟩ := h5 a (by omega)
      rw [htr]
      simp only [retryPolicy]
      rw [if_neg (by omega), if_neg (by omega), if_pos hs5, if_pos ha]
    have hfail : ∀ a, a + 1 = cfg.maxAttempts →
        retryPolicy cfg a (transport req a) =
          RetryDecision.failNow (ClientError.apiError (s a)) := by
      intro a ha
      obtain ⟨hs5, htr⟩ := h5 a (by omega)
      rw [htr]
      simp only [retryPolicy]
      rw [if_neg (by omega), if_neg (by omega), if_pos hs5,
        if_neg (by omega)]
    have hrt : runTransport cfg (transport req) =
        ⟨Except.error (ClientError.apiError (s (cfg.maxAttempts - 1))),
         cfg.maxAttempts,
         (List.range (cfg.maxAttempts - 1)).map (backoffDelay cfg)⟩ := by
      unfold runTransport
      rw [execLoop_persistent cfg (transport req)
        (fun a => ClientError.apiError (s a)) hret hfail
        cfg.maxAttempts 0 (by omega) hpos, hdl]
    rw [embed_open]
    exact embedCore_transport_error hn hb hrt

/-- C6: the Response Parser rejects every 2xx payload that is missing a
required field — model identifier, items array, per-item text echo,
embedding vector or usage, or top-level usage total — or whose item count
differs from the input count, failing with `InvalidResponseError`. -/
theorem parseResponse_rejects_malformed (n : Nat) (raw : RawPayload)
    (h : MalformedPayload n raw) :
    parseResponse n raw = Except.error ClientError.invalidResponseError := by
  rcases h with hm | hp | hu | ⟨items, hp, hbad⟩
  · exact parseResponse_model_none hm
  · exact parseResponse_payload_none hp
  · exact parseResponse_usage_none hu
  · cases hm : raw.model with
    | none => exact parseResponse_model_none hm
    | some m =>
      cases hu : raw.usage with
      | none => exact parseResponse_usage_none hu
      | some tot =>
        have hraw : raw = ⟨some m, some items, some tot⟩ := by
          obtain ⟨a, b, c⟩ := raw
          simp_all
        rw [hraw, parseResponse_some]
        rcases hbad with hlen | ⟨it, hmem, hbad'⟩
        · rw [if_neg hlen]
        · by_cases hl : items.length = n
          · rw [if_pos hl, parseItems_bad_mem hmem hbad']
          · rw [if_neg hl]

/-- C9 (amended): whenever a payload whose per-item usage counts sum to its
top-level total parses successfully, the resulting response's aggregate
`total_usage.total_tokens` equals the sum of the per-item usage counts —
the parser copies both verbatim, so the invariant holds exactly when the
service payload is internally consistent. -/
theorem total_usage_eq_sum_of_items (n : Nat) (raw : RawPayload)
    (resp : EmbeddingResponse) (items : List RawItem) (tot : Nat)
    (hp : raw.payload = some items) (hu : raw.usage = some tot)
    (hsum : (items.map (fun it => it.usage.getD 0)).sum = tot)
    (hok : parseResponse n raw = Except.ok resp) :
    resp.total_usage.total_tokens =
      (resp.payload.map (fun it => it.usage.total_tokens)).sum := by
  obtain ⟨items', tot', hm', hp', hu', hlen', hpi', htu'⟩ :=
    parseResponse_ok_elim hok
  rw [hp] at hp'
  injection hp' with hp'
  subst hp'
  rw [hu] at hu'
  injection hu' with hu'
  subst hu'
  obtain ⟨g0, g1, g2, g3⟩ := parseItems_ok_spec hpi'
  have husage : items.map (fun it => it.usage.getD 0) =
      resp.payload.map (fun x => x.usage.total_tokens) := by
    calc items.map (fun it => it.usage.getD 0)
        = (items.map RawItem.usage).map (fun o => o.getD 0) := by
          rw [List.map_map]; rfl
      _ = (resp.payload.map (fun x => some x.usage.total_tokens)).map
            (fun o => o.getD 0) := by rw [g3]
      _ = resp.payload.map (fun x => x.usage.total_tokens) := by
          rw [List.map_map]; rfl
  rw [htu']
  rw [← hsum, husage]

/-- C10: a successfully parsed response exposes the ordered items under
`payload` (each item exposing `text`, `embedding` and `usage.total_tokens`,
echoing the raw items positionally), the model identifier under `model` and
the aggregate usage under `total_usage.total_tokens`; an `APIError` exposes
its HTTP status under `status_code`. -/
theorem response_interface_shape (n : Nat) (raw : RawPayload)
    (resp : EmbeddingResponse) (items : List RawItem)
    (hp : raw.payload = some items)
    (hok : parseResponse n raw = Except.ok resp) :
    raw.model = some resp.model ∧
      resp.payload.map (fun it => some it.text) = items.map RawItem.text ∧
      resp.payload.map (fun it => some it.embedding) =
        items.map RawItem.embedding ∧
      resp.payload.map (fun it => some it.usage.total_tokens) =
        items.map RawItem.usage ∧
      raw.usage = some resp.total_usage.total_tokens ∧
      ∀ s, (ClientError.apiError s).status_code = some s := by
  obtain ⟨items', tot', hm', hp', hu', hlen', hpi', htu'⟩ :=
    parseResponse_ok_elim hok
  rw [hp] at hp'
  injection hp' with hp'
  subst hp'
  obtain ⟨g0, g1, g2, g3⟩ := parseItems_ok_spec hpi'
  refine ⟨hm', g1, g2, g3, ?_, fun s => rfl⟩
  rw [hu', htu']

/-- C2: for every semantic-weight value outside the closed interval from 0
to 1, `embed` fails with a `ValidationError` and makes zero transport
attempts — the failure is raised before any network call. -/
theorem embed_semantic_weight_out_of_range (cfg : ClientConfig)
    (transport : MockTransport) (input : EmbedInput) (opts : EmbedOptions)
    (w : ℚ) (hw : opts.semantic_weight = some w) (hout : w < 0 ∨ 1 < w) :
    ∃ m, (NeuraLexClient.create cfg).embed transport input opts =
      ⟨Except.error (ClientError.validationError m), 0, []⟩ := by
  rw [embed_open]
  cases hn : normalizeInput cfg.batchLimit input with
  | error e =>
    obtain ⟨m, rfl⟩ := normalizeInput_error_validation hn
    exact ⟨m, by simp [embedCore, hn]⟩
  | ok texts =>
    refine ⟨"semantic_weight must be within [0.0, 1.0]", ?_⟩
    simp [embedCore, hn, buildRequest_out_of_range hw hout]

/-- C3: for every HTTP 401 or 403 transport outcome, `embed` fails with
`AuthenticationError` after exactly one transport attempt — authentication
failures are never retried. -/
theorem embed_auth_failure_no_retry (cfg : ClientConfig)
    (transport : MockTransport) (input : EmbedInput) (opts : EmbedOptions)
    (texts : List String) (req : RequestDescriptor) (s : Nat)
    (hint : Option Nat)
    (hn : normalizeInput cfg.batchLimit input = Except.ok texts)
    (hb : buildRequest cfg texts opts = Except.ok req)
    (hpos : 0 < cfg.maxAttempts)
    (hs : s = 401 ∨ s = 403)
    (htr : transport req 0 = TransportOutcome.httpError s hint) :
    (NeuraLexClient.create cfg).embed transport input opts =
      ⟨Except.error (ClientError.authenticationError s), 1, []⟩ := by
  obtain ⟨f, hf⟩ : ∃ f, cfg.maxAttempts = f + 1 :=
    ⟨cfg.maxAttempts - 1, by omega⟩
  have hpol : retryPolicy cfg 0 (transport req 0) =
      RetryDecision.failNow (ClientError.authenticationError s) := by
    rw [htr]
    simp [retryPolicy, hs]
  have hrt : runTransport cfg (transport req) =
      ⟨Except.error (ClientError.authenticationError s), 1, []⟩ := by
    unfold runTransport
    rw [hf, execLoop, hpol]
  rw [embed_open]
  exact embedCore_transport_error hn hb hrt

/-- C5: for every invalid input — empty sequence, an element that is empty
or whitespace-only, or a count above the batch limit — `embed` fails with a
`ValidationError` and makes zero transport calls. -/
theorem embed_invalid_input_rejected (cfg : ClientConfig)
    (transport : MockTransport) (input : EmbedInput) (opts : EmbedOptions)
    (h : InvalidInput cfg.batchLimit input) :
    ∃ m, (NeuraLexClient.create cfg).embed transport input opts =
      ⟨Except.error (ClientError.validationError m), 0, []⟩ := by
  obtain ⟨m, hm⟩ := normalizeInput_invalid h
  exact ⟨m, by rw [embed_open]; simp [embedCore, hm]⟩

/-- C7: for every configuration, resource state, input, options and mocked
transport, the synchronous and the asynchronous facade produce identical
embed traces — the same result, the same number of transport attempts and
the same backoff delays at every attempt. -/
theorem sync_async_embed_agree (cfg : ClientConfig) (b : Bool)
    (transport : MockTransport) (input : EmbedInput) (opts : EmbedOptions) :
    (AsyncNeuraLexClient.mk cfg b).embed transport input opts =
      (NeuraLexClient.mk cfg b).embed transport input opts := by
  have hexec : runTransportAsync = runTransport :=
    funext fun c => funext fun t => runTransportAsync_eq c t
  unfold AsyncNeuraLexClient.embed NeuraLexClient.embed
  rw [hexec]

/-- C8: once `close()` has been called — explicitly or by scope exit of the
scoped-acquisition form, on either facade — every subsequent `embed` fails
with the resource-closed error and performs zero transport calls, so the
released connection context is never used again. -/
theorem embed_after_close_fails {β γ : Type} (c : NeuraLexClient)
    (a : AsyncNeuraLexClient) (cfg : ClientConfig)
    (transport : MockTransport) (input : EmbedInput) (opts : EmbedOptions)
    (body : NeuraLexClient → β) (abody : AsyncNeuraLexClient → γ) :
    c.close.embed transport input opts =
        ⟨Except.error ClientError.resourceClosedError, 0, []⟩ ∧
      a.close.embed transport input opts =
        ⟨Except.error ClientError.resourceClosedError, 0, []⟩ ∧
      (withNeuraLexClient cfg body).2.embed transport input opts =
        ⟨Except.error ClientError.resourceClosedError, 0, []⟩ ∧
      (withAsyncNeuraLexClient cfg abody).2.embed transport input opts =
        ⟨Except.error ClientError.resourceClosedError, 0, []⟩ :=
  ⟨rfl, rfl, rfl, rfl⟩

/-! ### Concrete fixtures for the witnesses -/

/-- A concrete configuration (all defaults, max attempts 3). -/
def cfgW : ClientConfig := { api_key := "k" }

/-- The descriptor the Request Builder produces from `cfgW` and one
input. -/
def reqW : RequestDescriptor :=
  ⟨"https://api.neuralex.ai/v1/embeddings", "Bearer k", ["hello"],
   "neuralex-embed-v1", none, 30000⟩

/-- A mock transport that always succeeds, echoing the request inputs. -/
def trEcho : MockTransport := fun req _ =>
  TransportOutcome.success
    ⟨some "neuralex-embed-v1",
     some (req.inputs.map (fun t => ⟨some t, some [(1 : ℚ)], some 5⟩)),
     some 10⟩

/-- A mock transport that always answers HTTP 401. -/
def tr401 : MockTransport := fun _ _ => TransportOutcome.httpError 401 none

/-- A mock transport that always answers HTTP 429 with no retry hint. -/
def tr429 : MockTransport := fun _ _ => TransportOutcome.httpError 429 none

/-- A mock transport that always fails at the connection level. -/
def trConn : MockTransport := fun _ _ => TransportOutcome.connectionFailure

theorem trEcho_echoes : EchoesInputs trEcho := by
  intro req a p h
  simp only [trEcho] at h
  cases h
  refine ⟨_, rfl, ?_⟩
  rw [List.map_map]
  apply List.map_congr_left
  intro t _
  rfl

/-- The response `trEcho` yields for the inputs a, b. -/
def respW1 : EmbeddingResponse :=
  ⟨"neuralex-embed-v1",
   [⟨"a", [(1 : ℚ)], ⟨5⟩⟩, ⟨"b", [(1 : ℚ)], ⟨5⟩⟩], ⟨10⟩⟩

/-- The raw items of the usage scenario: usage 4 and 6 with total 10. -/
def itemsW9 : List RawItem :=
  [⟨some "a", some [(1 : ℚ), 2, 3, 4], some 4⟩,
   ⟨some "b", some [(5 : ℚ), 6, 7, 8], some 6⟩]

/-- The raw payload of the usage scenario. -/
def rawW9 : RawPayload := ⟨some "neuralex-embed-v1", some itemsW9, some 10⟩

/-- The parsed response of the usage scenario. -/
def respW9 : EmbeddingResponse :=
  ⟨"neuralex-embed-v1",
   [⟨"a", [(1 : ℚ), 2, 3, 4], ⟨4⟩⟩, ⟨"b", [(5 : ℚ), 6, 7, 8], ⟨6⟩⟩], ⟨10⟩⟩

/-- A raw payload with no model identifier. -/
def rawBad : RawPayload := ⟨none, some [], some 0⟩

/-- A raw payload whose per-item usages (4 and 6) do not sum to its
top-level total (11). -/
def rawW9bad : RawPayload := ⟨some "neuralex-embed-v1", some itemsW9, some 11⟩

/-- The parsed response of that inconsistent payload. -/
def respW9bad : EmbeddingResponse :=
  ⟨"neuralex-embed-v1",
   [⟨"a", [(1 : ℚ), 2, 3, 4], ⟨4⟩⟩, ⟨"b", [(5 : ℚ), 6, 7, 8], ⟨6⟩⟩], ⟨11⟩⟩

/-! ### Witnesses -/

/-- Witness for C1 at the concrete batch a, b against `trEcho`. -/
theorem embed_preserves_count_and_order_witness :
    normalizeInput cfgW.batchLimit (EmbedInput.batch ["a", "b"]) =
        Except.ok ["a", "b"] ∧
      ((NeuraLexClient.create cfgW).embed trEcho
          (EmbedInput.batch ["a", "b"]) {}).result = Except.ok respW1 ∧
      respW1.payload.length = ["a", "b"].length ∧
      respW1.payload.map EmbeddingItem.text = ["a", "b"] := by
  have h := embed_preserves_count_and_order cfgW trEcho
    (EmbedInput.batch ["a", "b"]) {} ["a", "b"] respW1 trEcho_echoes
    (by decide) (by decide)
  exact ⟨by decide, by decide, h.1, h.2⟩

/-- Witness for C2 at semantic weight 3/2. -/
theorem embed_semantic_weight_out_of_range_witness :
    ((3 : ℚ) / 2 < 0 ∨ 1 < (3 : ℚ) / 2) ∧
      ∃ m, (NeuraLexClient.create cfgW).embed trEcho
          (EmbedInput.single "hello")
          { semantic_weight := some (3 / 2) } =
        ⟨Except.error (ClientError.validationError m), 0, []⟩ :=
  ⟨Or.inr (by norm_num),
   embed_semantic_weight_out_of_range cfgW trEcho (EmbedInput.single "hello")
     { semantic_weight := some (3 / 2) } (3 / 2) rfl (Or.inr (by norm_num))⟩

/-- Witness for C3 against a transport that always answers 401. -/
theorem embed_auth_failure_no_retry_witness :
    0 < cfgW.maxAttempts ∧
      tr401 reqW 0 = TransportOutcome.httpError 401 none ∧
      (NeuraLexClient.create cfgW).embed tr401
          (EmbedInput.single "hello") {} =
        ⟨Except.error (ClientError.authenticationError 401), 1, []⟩ :=
  ⟨by decide, rfl,
   embed_auth_failure_no_retry cfgW tr401 (EmbedInput.single "hello") {}
     ["hello"] reqW 401 none (by decide) (by decide) (by decide)
     (Or.inl rfl) rfl⟩

/-- Witness for C4 against a transport that always answers 429: the
429-to-RateLimitError pairing, exercised at max attempts 3. -/
theorem embed_retry_exhaustion_witness :
    0 < cfgW.maxAttempts ∧
      (∀ i, i < cfgW.maxAttempts →
        tr429 reqW i = TransportOutcome.httpError 429 none) ∧
      (NeuraLexClient.create cfgW).embed tr429
          (EmbedInput.single "hello") {} =
        ⟨Except.error (ClientError.rateLimitError 429 none),
         cfgW.maxAttempts,
         (List.range (cfgW.maxAttempts - 1)).map (backoffDelay cfgW)⟩ ∧
      List.Chain' (· ≤ ·)
        ((List.range (cfgW.maxAttempts - 1)).map (backoffDelay cfgW)) := by
  have h := embed_retry_exhaustion cfgW tr429 (EmbedInput.single "hello") {}
    ["hello"] reqW (by decide) (by decide) (by decide)
  exact ⟨by decide, fun i _ => rfl, h.1 (fun i _ => rfl), h.2.2⟩

/-- Witness for C5 at the single empty-string input. -/
theorem embed_invalid_input_rejected_witness :
    InvalidInput cfgW.batchLimit (EmbedInput.single "") ∧
      ∃ m, (NeuraLexClient.create cfgW).embed trConn
          (EmbedInput.single "") {} =
        ⟨Except.error (ClientError.validationError m), 0, []⟩ :=
  ⟨Or.inr (Or.inl ⟨"", by simp [EmbedInput.toList], by decide⟩),
   embed_invalid_input_rejected cfgW trConn (EmbedInput.single "") {}
     (Or.inr (Or.inl ⟨"", by simp [EmbedInput.toList], by decide⟩))⟩

/-- Witness for C6 at a payload with no model identifier. -/
theorem parseResponse_rejects_malformed_witness :
    MalformedPayload 1 rawBad ∧
      parseResponse 1 rawBad =
        Except.error ClientError.invalidResponseError :=
  ⟨Or.inl rfl, parseResponse_rejects_malformed 1 rawBad (Or.inl rfl)⟩

/-- C9 counterexample: a payload whose items all carry per-item usage
counts (4 and 6) but whose top-level total is 11 parses successfully, and
the parsed aggregate total is 11, not the item sum 10 — so the aggregate
does not always equal the sum of per-item usages when they are present. -/
theorem total_usage_counterexample :
    parseResponse 2 rawW9bad = Except.ok respW9bad ∧
      respW9bad.total_usage.total_tokens ≠
        (respW9bad.payload.map (fun it => it.usage.total_tokens)).sum :=
  ⟨by decide, by decide⟩

/-- Witness for C9 at the scenario of two items with usage 4 and 6 and
total 10. -/
theorem total_usage_eq_sum_of_items_witness :
    parseResponse 2 rawW9 = Except.ok respW9 ∧
      respW9.payload.map EmbeddingItem.text = ["a", "b"] ∧
      respW9.total_usage.total_tokens =
        (respW9.payload.map (fun it => it.usage.total_tokens)).sum :=
  ⟨by decide, by decide,
   total_usage_eq_sum_of_items 2 rawW9 respW9 itemsW9 10 rfl rfl
     (by decide) (by decide)⟩

/-- Witness for C10 at the same concrete payload, with the error accessor
checked at status 404. -/
theorem response_interface_shape_witness :
    rawW9.model = some respW9.model ∧
      respW9.payload.map (fun it => some it.text) =
        itemsW9.map RawItem.text ∧
      respW9.payload.map (fun it => some it.embedding) =
        itemsW9.map RawItem.embedding ∧
      respW9.payload.map (fun it => some it.usage.total_tokens) =
        itemsW9.map RawItem.usage ∧
      rawW9.usage = some respW9.total_usage.total_tokens ∧
      (ClientError.apiError 404).status_code = some 404 := by
  have h := response_interface_shape 2 rawW9 respW9 itemsW9 rfl (by decide)
  exact ⟨h.1, h.2.1, h.2.2.1, h.2.2.2.1, h.2.2.2.2.1, h.2.2.2.2.2 404⟩

end NeuraLex
